import Mathlib

/-!
Shallow embedding of the `trading_bot` repository (a Binance USDT-M futures
testnet CLI) and proofs about its signing / validation / transport pipeline.

Modelling conventions:
* Python strings are Lean `String`s; the character-level operations
  (`str.strip`, `str.upper`, `str.isalnum`) are modelled on the ASCII
  fragment, which is the fragment exercised by the program (trading symbols,
  sides, order types).
* Python numbers used by the validators (`quantity`, `price`, `stop_price`)
  are modelled as exact rationals `Rat`; the validators only compare them
  with `0`, so the ordered-field structure is all that matters.
* Python dicts built by the program are insertion-ordered association lists
  `List (String × _)`; `dictSet` mirrors Python's `d[k] = v` (update in
  place when the key exists, append otherwise).
* Exceptions are modelled with `Except String`: `.error msg` is a raised
  `ValueError msg`.
-/

namespace TradingBot

/-- Whitespace characters stripped by Python's `str.strip()` (ASCII range). -/
def isPySpace (c : Char) : Bool :=
  c = ' ' || c = '\t' || c = '\n' || c = '\r' || c = '\x0b' || c = '\x0c'

/-- Python `str.strip()` on a character list: drop leading and trailing whitespace. -/
def pyStripList (l : List Char) : List Char :=
  ((l.dropWhile isPySpace).reverse.dropWhile isPySpace).reverse

/-- Python `str.strip()`. -/
def pyStrip (s : String) : String := String.mk (pyStripList s.toList)

/-- Python `str.upper()` on one ASCII character: `a`-`z` maps to `A`-`Z`. -/
def pyToUpper (c : Char) : Char :=
  if 97 ≤ c.toNat ∧ c.toNat ≤ 122 then Char.ofNat (c.toNat - 32) else c

/-- Python `str.upper()` (ASCII fragment). -/
def pyUpper (s : String) : String := String.mk (s.toList.map pyToUpper)

/-- Python `str.isalnum()` on one ASCII character: a digit `0`-`9`, an
uppercase letter `A`-`Z` or a lowercase letter `a`-`z`. -/
def isAlnumChar (c : Char) : Bool :=
  (48 ≤ c.toNat && c.toNat ≤ 57) || (65 ≤ c.toNat && c.toNat ≤ 90)
    || (97 ≤ c.toNat && c.toNat ≤ 122)

/-- Python `str.isalnum()`: non-empty and every character alphanumeric. -/
def pyIsAlnum (s : String) : Bool := !s.toList.isEmpty && s.toList.all isAlnumChar

/-! ### bot/validators.py -/

/-- Embeds `validators.validate_symbol`: strip, uppercase, require non-empty
and alphanumeric; return the normalised symbol. -/
def validate_symbol (symbol : String) : Except String String :=
  if pyUpper (pyStrip symbol) = "" then .error "Symbol cannot be empty."
  else if !pyIsAlnum (pyUpper (pyStrip symbol)) then
    .error ("Symbol '" ++ pyUpper (pyStrip symbol) ++ "' contains invalid characters.")
  else .ok (pyUpper (pyStrip symbol))

/-- Embeds `validators.VALID_SIDES`. -/
def VALID_SIDES : List String := ["BUY", "SELL"]

/-- Embeds `validators.VALID_ORDER_TYPES`. -/
def VALID_ORDER_TYPES : List String := ["MARKET", "LIMIT", "STOP_MARKET"]

/-- Embeds `validators.validate_side`: strip, uppercase, require BUY or SELL. -/
def validate_side (side : String) : Except String String :=
  if pyUpper (pyStrip side) ∈ VALID_SIDES then .ok (pyUpper (pyStrip side))
  else .error ("Side must be one of \x7b'BUY', 'SELL'\x7d, got '" ++ pyUpper (pyStrip side) ++ "'.")

/-- Embeds `validators.validate_order_type`: strip, uppercase, require one of
MARKET, LIMIT, STOP_MARKET. -/
def validate_order_type (order_type : String) : Except String String :=
  if pyUpper (pyStrip order_type) ∈ VALID_ORDER_TYPES then .ok (pyUpper (pyStrip order_type))
  else .error ("Order type must be one of \x7b'MARKET', 'LIMIT', 'STOP_MARKET'\x7d, got '"
    ++ pyUpper (pyStrip order_type) ++ "'.")

/-- Embeds `validators.validate_quantity`: require a strictly positive quantity.
The interpolated numeric value of the Python message is elided. -/
def validate_quantity (quantity : Rat) : Except String Rat :=
  if quantity ≤ 0 then .error "Quantity must be > 0."
  else .ok quantity

/-- Embeds `validators.validate_price`: for LIMIT / STOP_MARKET order types the
price must be present and strictly positive; otherwise the price is returned
unchecked. The interpolated numeric value of the Python message is elided. -/
def validate_price (price : Option Rat) (order_type : String) : Except String (Option Rat) :=
  if order_type = "LIMIT" ∨ order_type = "STOP_MARKET" then
    match price with
    | none => .error ("Price is required for " ++ order_type ++ " orders.")
    | some p => if p ≤ 0 then .error "Price must be > 0." else .ok price
  else .ok price

/-- The normalised parameter dict returned by `validators.validate_all`.
`stop_price = none` models the absence of the `"stop_price"` key. -/
structure Validated where
  symbol : String
  side : String
  order_type : String
  quantity : Rat
  price : Option Rat
  stop_price : Option Rat
deriving DecidableEq, Repr

/-- Embeds `validators.validate_all`: run every field validator in the Python
evaluation order and assemble the normalised dict; for STOP_MARKET the stop
price must be present and strictly positive. -/
def validate_all (symbol side order_type : String) (quantity : Rat)
    (price stop_price : Option Rat) : Except String Validated :=
  match validate_symbol symbol with
  | .error e => .error e
  | .ok s =>
  match validate_side side with
  | .error e => .error e
  | .ok sd =>
  match validate_order_type order_type with
  | .error e => .error e
  | .ok ot =>
  match validate_quantity quantity with
  | .error e => .error e
  | .ok q =>
  match validate_price price (pyUpper (pyStrip order_type)) with
  | .error e => .error e
  | .ok p =>
  if pyUpper (pyStrip order_type) = "STOP_MARKET" then
    match stop_price with
    | none => .error "stop_price is required and must be > 0 for STOP_MARKET orders."
    | some sp =>
        if sp ≤ 0 then .error "stop_price is required and must be > 0 for STOP_MARKET orders."
        else .ok ⟨s, sd, ot, q, p, some sp⟩
  else .ok ⟨s, sd, ot, q, p, none⟩

/-! ### Bytes, UTF-8 and URL encoding

The signer in `bot/client.py` uses `urllib.parse.urlencode` on the parameter
dict and `hmac.new(secret, query, hashlib.sha256).hexdigest()`; these library
functions are embedded concretely below.  Bytes are `Nat`s below 256. -/

/-- UTF-8 encoding of one character (Python `str.encode("utf-8")`). -/
def utf8Char (c : Char) : List Nat :=
  let n := c.toNat
  if n < 128 then [n]
  else if n < 2048 then [192 ||| (n >>> 6), 128 ||| (n &&& 63)]
  else if n < 65536 then
    [224 ||| (n >>> 12), 128 ||| ((n >>> 6) &&& 63), 128 ||| (n &&& 63)]
  else
    [240 ||| (n >>> 18), 128 ||| ((n >>> 12) &&& 63),
     128 ||| ((n >>> 6) &&& 63), 128 ||| (n &&& 63)]

/-- UTF-8 encoding of a string. -/
def utf8 (s : String) : List Nat := s.toList.flatMap utf8Char

/-- Lowercase hexadecimal digit, as used by Python's `hexdigest()`. -/
def hexDigit (n : Nat) : Char :=
  match n with
  | 0 => '0' | 1 => '1' | 2 => '2' | 3 => '3' | 4 => '4'
  | 5 => '5' | 6 => '6' | 7 => '7' | 8 => '8' | 9 => '9'
  | 10 => 'a' | 11 => 'b' | 12 => 'c' | 13 => 'd' | 14 => 'e' | 15 => 'f'
  | _ => '0'

/-- Uppercase hexadecimal digit, as used by `urllib.parse.quote`'s `%XX` escapes. -/
def hexDigitU (n : Nat) : Char :=
  match n with
  | 0 => '0' | 1 => '1' | 2 => '2' | 3 => '3' | 4 => '4'
  | 5 => '5' | 6 => '6' | 7 => '7' | 8 => '8' | 9 => '9'
  | 10 => 'A' | 11 => 'B' | 12 => 'C' | 13 => 'D' | 14 => 'E' | 15 => 'F'
  | _ => '0'

/-- Lowercase hex string of a byte list (Python `hexdigest()`). -/
def hexOfBytes (bs : List Nat) : String :=
  String.mk (bs.flatMap fun b => [hexDigit (b / 16 % 16), hexDigit (b % 16)])

/-- Characters `urllib.parse.quote_plus` leaves unescaped (`ALWAYS_SAFE`). -/
def isUrlSafe (c : Char) : Bool :=
  c.isAlphanum || c = '_' || c = '.' || c = '-' || c = '~'

/-- Percent-escape of one byte, uppercase hex. -/
def pctByte (b : Nat) : List Char := ['%', hexDigitU (b / 16 % 16), hexDigitU (b % 16)]

/-- Embeds `urllib.parse.quote_plus`: safe characters pass through, a space
becomes `+`, everything else is percent-encoded bytewise over UTF-8. -/
def quotePlus (s : String) : String :=
  String.mk (s.toList.flatMap fun c =>
    if isUrlSafe c then [c]
    else if c = ' ' then ['+']
    else (utf8Char c).flatMap pctByte)

/-- Embeds `urllib.parse.urlencode` on a string-valued parameter dict. -/
def urlencode (d : List (String × String)) : String :=
  String.intercalate "&" (d.map fun p => quotePlus p.1 ++ "=" ++ quotePlus p.2)

/-! ### SHA-256 (hashlib.sha256) -/

/-- Two to the 32, the word modulus of SHA-256. -/
def M32 : Nat := 4294967296

/-- 32-bit rotate-right, computed on `Nat` and reduced mod `M32`. -/
def rotr (x n : Nat) : Nat := ((x >>> n) ||| (x <<< (32 - n))) % M32

/-- Bitwise complement of a 32-bit word. -/
def bnot32 (x : Nat) : Nat := x ^^^ (M32 - 1)

/-- SHA-256 big sigma 0. -/
def bsig0 (x : Nat) : Nat := rotr x 2 ^^^ rotr x 13 ^^^ rotr x 22

/-- SHA-256 big sigma 1. -/
def bsig1 (x : Nat) : Nat := rotr x 6 ^^^ rotr x 11 ^^^ rotr x 25

/-- SHA-256 small sigma 0. -/
def ssig0 (x : Nat) : Nat := rotr x 7 ^^^ rotr x 18 ^^^ (x >>> 3)

/-- SHA-256 small sigma 1. -/
def ssig1 (x : Nat) : Nat := rotr x 17 ^^^ rotr x 19 ^^^ (x >>> 10)

/-- SHA-256 choice function. -/
def ch (x y z : Nat) : Nat := (x &&& y) ^^^ (bnot32 x &&& z)

/-- SHA-256 majority function. -/
def maj (x y z : Nat) : Nat := (x &&& y) ^^^ (x &&& z) ^^^ (y &&& z)

/-- SHA-256 round constants. -/
def K : List Nat :=
  [1116352408, 1899447441, 3049323471, 3921009573, 961987163, 1508970993,
   2453635748, 2870763221, 3624381080, 310598401, 607225278, 1426881987,
   1925078388, 2162078206, 2614888103, 3248222580, 3835390401, 4022224774,
   264347078, 604807628, 770255983, 1249150122, 1555081692, 1996064986,
   2554220882, 2821834349, 2952996808, 3210313671, 3336571891, 3584528711,
   113926993, 338241895, 666307205, 773529912, 1294757372, 1396182291,
   1695183700, 1986661051, 2177026350, 2456956037, 2730485921, 2820302411,
   3259730800, 3345764771, 3516065817, 3600352804, 4094571909, 275423344,
   430227734, 506948616, 659060556, 883997877, 958139571, 1322822218,
   1537002063, 1747873779, 1955562222, 2024104815, 2227730452, 2361852424,
   2428436474, 2756734187, 3204031479, 3329325298]

/-- SHA-256 initial hash state. -/
def H0 : List Nat :=
  [1779033703, 3144134277, 1013904242, 2773480762, 1359893119, 2600822924, 528734635, 1541459225]

/-- Group a byte list into big-endian 32-bit words. -/
def toWords : List Nat → List Nat
  | b0 :: b1 :: b2 :: b3 :: rest =>
      (b0 * 16777216 + b1 * 65536 + b2 * 256 + b3) :: toWords rest
  | _ => []

/-- Big-endian bytes of a 32-bit word. -/
def wordBytes (n : Nat) : List Nat :=
  [(n >>> 24) % 256, (n >>> 16) % 256, (n >>> 8) % 256, n % 256]

/-- Big-endian 8-byte encoding of the 64-bit message bit length. -/
def lenBytes64 (n : Nat) : List Nat :=
  [(n >>> 56) % 256, (n >>> 48) % 256, (n >>> 40) % 256, (n >>> 32) % 256,
   (n >>> 24) % 256, (n >>> 16) % 256, (n >>> 8) % 256, n % 256]

/-- SHA-256 message padding: append `0x80`, zeros to 56 mod 64, then the
bit length as 8 big-endian bytes. -/
def padMsg (msg : List Nat) : List Nat :=
  let L := msg.length
  msg ++ [128] ++ List.replicate ((120 - (L + 1) % 64) % 64) 0
      ++ lenBytes64 (8 * L % 18446744073709551616)

/-- Split a byte list into 64-byte chunks. -/
def chunks64 (l : List Nat) : List (List Nat) :=
  if _h : l = [] then [] else l.take 64 :: chunks64 (l.drop 64)
termination_by l.length
decreasing_by
  simp only [List.length_drop]
  have : 0 < l.length := List.length_pos.mpr _h
  omega

/-- Extend the 16 chunk words to the 64-entry message schedule. -/
def sched (w : Array Nat) : Array Nat :=
  (List.range 48).foldl (fun w _ =>
    let t := w.size
    w.push ((ssig1 (w.get! (t - 2)) + w.get! (t - 7)
      + ssig0 (w.get! (t - 15)) + w.get! (t - 16)) % M32)) w

/-- One SHA-256 compression round on the `[a,b,c,d,e,f,g,h]` state. -/
def shaRound (s : List Nat) (kw : Nat × Nat) : List Nat :=
  match s with
  | [a, b, c, d, e, f, g, h] =>
      let t1 := (h + bsig1 e + ch e f g + kw.1 + kw.2) % M32
      let t2 := (bsig0 a + maj a b c) % M32
      [(t1 + t2) % M32, a, b, c, (d + t1) % M32, e, f, g]
  | s => s

/-- Process one 64-byte chunk into the running hash state. -/
def processChunk (h : List Nat) (chunk : List Nat) : List Nat :=
  let w := sched (toWords chunk).toArray
  let s := (K.zip w.toList).foldl shaRound h
  (h.zip s).map fun p => (p.1 + p.2) % M32

/-- SHA-256 of a byte list, as 32 digest bytes (embeds `hashlib.sha256`). -/
def sha256 (msg : List Nat) : List Nat :=
  ((chunks64 (padMsg msg)).foldl processChunk H0).flatMap wordBytes

/-- HMAC-SHA256 (embeds `hmac.new(key, msg, hashlib.sha256).digest()`):
block size 64, long keys are hashed, short keys zero-padded. -/
def hmacSha256 (key msg : List Nat) : List Nat :=
  let k0 := if 64 < key.length then sha256 key else key
  let k := k0 ++ List.replicate (64 - k0.length) 0
  sha256 ((k.map (· ^^^ 92)) ++ sha256 ((k.map (· ^^^ 54)) ++ msg))

/-- Lowercase hex HMAC-SHA256 digest (embeds `.hexdigest()`). -/
def hmacSha256Hex (key msg : List Nat) : String := hexOfBytes (hmacSha256 key msg)

/-! ### bot/client.py -/

/-- Python `d[k] = v` on an insertion-ordered dict: update the existing entry
in place, or append a new one. -/
def dictSet (d : List (String × String)) (k v : String) : List (String × String) :=
  if (d.map Prod.fst).contains k then
    d.map fun p => if p.1 = k then (p.1, v) else p
  else d ++ [(k, v)]

/-- Embeds `BinanceFuturesClient._sign`: set `timestamp` to the current time
in milliseconds, compute the lowercase hex HMAC-SHA256 of the URL-encoded
parameters keyed by the API secret, and set it as `signature`.  The wall
clock read `int(time.time() * 1000)` is passed in as `now`. -/
def signParams (secret : String) (now : Nat) (params : List (String × String)) :
    List (String × String) :=
  let p1 := dictSet params "timestamp" (toString now)
  let signature := hmacSha256Hex (utf8 secret) (utf8 (urlencode p1))
  dictSet p1 "signature" signature

/-- Drop a key from a dict (used to state the signature round-trip). -/
def eraseKey (d : List (String × String)) (k : String) : List (String × String) :=
  d.filter fun p => p.1 ≠ k

/-- HTTP verbs a `requests.Session` can send. -/
inductive HttpVerb where
  | GET | POST | DELETE
deriving DecidableEq, Repr

/-- Embeds the dispatch in `BinanceFuturesClient._request`: a `GET` method
string is sent with `session.get`, every other method string with
`session.post`. -/
def requestVerb (method : String) : HttpVerb :=
  if pyUpper method = "GET" then .GET else .POST

/-- Values placed in parameter dicts handed to `_request`: strings and the
numeric quantities, prices and ids. -/
inductive PVal where
  | s (v : String)
  | q (v : Rat)
deriving DecidableEq, Repr

/-- The wire-level request `_request` hands to the HTTP session, up to the
signing of its parameters. -/
structure WireRequest where
  verb : HttpVerb
  endpoint : String
  params : List (String × PVal)
deriving DecidableEq, Repr

/-- Embeds the send step of `BinanceFuturesClient.cancel_order`: it calls
`_request("DELETE", "/fapi/v1/order", {symbol: symbol.upper(), orderId: id})`,
and `_request` chooses the verb via `requestVerb`. -/
def cancel_order_wire (symbol : String) (orderId : Int) : WireRequest :=
  ⟨requestVerb "DELETE", "/fapi/v1/order",
   [("symbol", .s (pyUpper symbol)), ("orderId", .q orderId)]⟩

/-- Parsed JSON values (the result of `resp.json()`). -/
inductive JValue where
  | null
  | bool (b : Bool)
  | num (n : Int)
  | str (s : String)
  | arr (xs : List JValue)
  | obj (fields : List (String × JValue))

/-- Outcome of `_request`'s response handling. -/
inductive ReqResult where
  | ok (data : JValue)
  | apiError (code : JValue) (msg : JValue)
  | httpError (status : Nat)
  | parseError

/-- Python `value == 200` on a parsed JSON value: true exactly for the
number 200 (the success sentinel checked by `_request`). -/
def isCode200 : JValue → Bool
  | .num n => n = 200
  | _ => false

/-- Whether `resp.raise_for_status()` raises: client and server error codes. -/
def isHttpFailure (status : Nat) : Bool := 400 ≤ status && status < 600

/-- Python `data.get("msg", "Unknown error")` on a parsed JSON object. -/
def msgOf (fields : List (String × JValue)) : JValue :=
  (fields.lookup "msg").getD (.str "Unknown error")

/-- Embeds the response handling of `BinanceFuturesClient._request`
(client.py lines 92-102): an unparseable body raises `HTTPError` for an
error status and re-raises the decode error otherwise; a dict body whose
`code` field differs from 200 raises `BinanceAPIError(code, msg)`; then
`raise_for_status` runs; otherwise the parsed data is returned.  `parsed`
is `some v` when `resp.json()` succeeds with value `v`. -/
def handleResponse (status : Nat) (parsed : Option JValue) : ReqResult :=
  match parsed with
  | none => if isHttpFailure status then .httpError status else .parseError
  | some data =>
      match data with
      | .obj fields =>
          match fields.lookup "code" with
          | some c =>
              if isCode200 c then
                if isHttpFailure status then .httpError status else .ok data
              else .apiError c (msgOf fields)
          | none => if isHttpFailure status then .httpError status else .ok data
      | _ => if isHttpFailure status then .httpError status else .ok data

/-- Embeds the parameter assembly of `BinanceFuturesClient.place_order`
(client.py lines 143-162): base keys symbol/side/type/quantity; `price` and
`timeInForce` added for LIMIT (raising when price is missing); `stopPrice`
added for STOP_MARKET (raising when stop price is missing); `reduceOnly`
added as the string `"true"` when the flag is set. -/
def buildOrderParams (symbol side order_type : String) (quantity : Rat)
    (price : Option Rat) (time_in_force : String) (stop_price : Option Rat)
    (reduce_only : Bool) : Except String (List (String × PVal)) := do
  let params : List (String × PVal) :=
    [("symbol", .s symbol), ("side", .s side), ("type", .s order_type),
     ("quantity", .q quantity)]
  let params ←
    if order_type = "LIMIT" then
      match price with
      | none => .error "price is required for LIMIT orders"
      | some p => pure (params ++ [("price", PVal.q p), ("timeInForce", PVal.s time_in_force)])
    else pure params
  let params ←
    if order_type = "STOP_MARKET" then
      match stop_price with
      | none => .error "stopPrice is required for STOP_MARKET orders"
      | some sp => pure (params ++ [("stopPrice", PVal.q sp)])
    else pure params
  pure (if reduce_only then params ++ [("reduceOnly", PVal.s "true")] else params)

/-! ### bot/orders.py -/

/-- Embeds `orders.place_order` up to the network boundary: validate the
inputs with `validate_all`, then build the client's order parameters exactly
as `BinanceFuturesClient.place_order` does (`time_in_force` keeps its default
`"GTC"`).  The first component is the list of requests issued to the HTTP
session; a raised `ValueError` propagates with an empty request list. -/
def place_order_run (symbol side order_type : String) (quantity : Rat)
    (price stop_price : Option Rat) (reduce_only : Bool) :
    List WireRequest × Except String Unit :=
  match validate_all symbol side order_type quantity price stop_price with
  | .error e => ([], .error e)
  | .ok v =>
      match buildOrderParams v.symbol v.side v.order_type v.quantity v.price
          "GTC" v.stop_price reduce_only with
      | .error e => ([], .error e)
      | .ok ps => ([⟨requestVerb "POST", "/fapi/v1/order", ps⟩], .ok ())

/-! ### Helper lemmas -/

theorem toNat_ofNat_valid (n : Nat) (h : n.isValidChar) : (Char.ofNat n).toNat = n := by
  simp [Char.ofNat, dif_pos h, Char.ofNatAux, Char.toNat, UInt32.ofNat', UInt32.toNat,
    BitVec.toNat_ofNatLt]

theorem pyToUpper_toNat (c : Char) (h : 97 ≤ c.toNat ∧ c.toNat ≤ 122) :
    (pyToUpper c).toNat = c.toNat - 32 := by
  rw [pyToUpper, if_pos h, toNat_ofNat_valid]
  exact Or.inl (by omega)

theorem pyToUpper_eq_self (c : Char) (h : ¬(97 ≤ c.toNat ∧ c.toNat ≤ 122)) :
    pyToUpper c = c := by
  rw [pyToUpper, if_neg h]

theorem pyToUpper_idem (c : Char) : pyToUpper (pyToUpper c) = pyToUpper c := by
  by_cases h : 97 ≤ c.toNat ∧ c.toNat ≤ 122
  · have h2 := pyToUpper_toNat c h
    exact pyToUpper_eq_self _ (by omega)
  · rw [pyToUpper_eq_self c h]
    exact pyToUpper_eq_self c h

theorem isAlnumChar_pyToUpper {c : Char} (h : isAlnumChar c = true) :
    isAlnumChar (pyToUpper c) = true := by
  by_cases hc : 97 ≤ c.toNat ∧ c.toNat ≤ 122
  · have h2 := pyToUpper_toNat c hc
    simp only [isAlnumChar, Bool.or_eq_true, Bool.and_eq_true, decide_eq_true_eq] at h ⊢
    omega
  · rw [pyToUpper_eq_self c hc]
    exact h

theorem isPySpace_of_alnum {c : Char} (h : isAlnumChar c = true) : isPySpace c = false := by
  by_contra hsp
  rw [Bool.not_eq_false] at hsp
  simp only [isPySpace, Bool.or_eq_true, decide_eq_true_eq] at hsp
  rcases hsp with ((((h1 | h1) | h1) | h1) | h1) | h1 <;>
    (subst h1; exact absurd h (by decide))

theorem dropWhile_eq_self_of_all {l : List Char} (h : ∀ c ∈ l, isPySpace c = false) :
    l.dropWhile isPySpace = l := by
  cases l with
  | nil => rfl
  | cons a t =>
      rw [List.dropWhile_cons, if_neg]
      simp [h a (List.mem_cons_self a t)]

theorem pyStripList_eq_self {l : List Char} (h : ∀ c ∈ l, isPySpace c = false) :
    pyStripList l = l := by
  unfold pyStripList
  rw [dropWhile_eq_self_of_all h,
    dropWhile_eq_self_of_all (fun c hc => h c (List.mem_reverse.mp hc)),
    List.reverse_reverse]

theorem stringMk_toList (s : String) : String.mk s.toList = s := rfl

theorem pyStrip_eq_self {s : String} (h : ∀ c ∈ s.toList, isPySpace c = false) :
    pyStrip s = s := by
  unfold pyStrip
  rw [pyStripList_eq_self h]
  exact stringMk_toList s

theorem pyUpper_pyUpper (s : String) : pyUpper (pyUpper s) = pyUpper s := by
  unfold pyUpper
  congr 1
  show (s.toList.map pyToUpper).map pyToUpper = s.toList.map pyToUpper
  rw [List.map_map]
  exact List.map_congr_left fun c _ => pyToUpper_idem c

theorem pyIsAlnum_iff {s : String} :
    pyIsAlnum s = true ↔ s.toList ≠ [] ∧ ∀ c ∈ s.toList, isAlnumChar c = true := by
  simp [pyIsAlnum, List.isEmpty_iff, List.all_eq_true]

theorem validate_side_ok {s r : String} (h : validate_side s = .ok r) :
    r = pyUpper (pyStrip s) ∧ r ∈ VALID_SIDES := by
  unfold validate_side at h
  split at h
  · cases h
    exact ⟨rfl, by assumption⟩
  · exact absurd h (by simp)

theorem validate_side_fix {s r : String} (h : validate_side s = .ok r) :
    validate_side r = .ok r := by
  obtain ⟨-, hmem⟩ := validate_side_ok h
  simp only [VALID_SIDES, List.mem_cons, List.not_mem_nil, or_false] at hmem
  rcases hmem with h1 | h1 <;> (subst h1; rfl)

theorem validate_order_type_ok {s r : String} (h : validate_order_type s = .ok r) :
    r = pyUpper (pyStrip s) ∧ r ∈ VALID_ORDER_TYPES := by
  unfold validate_order_type at h
  split at h
  · cases h
    exact ⟨rfl, by assumption⟩
  · exact absurd h (by simp)

theorem validate_order_type_fix {s r : String} (h : validate_order_type s = .ok r) :
    validate_order_type r = .ok r := by
  obtain ⟨-, hmem⟩ := validate_order_type_ok h
  simp only [VALID_ORDER_TYPES, List.mem_cons, List.not_mem_nil, or_false] at hmem
  rcases hmem with h1 | h1 | h1 <;> (subst h1; rfl)

theorem normalize_fix {t : String} (h : t ∈ VALID_ORDER_TYPES) :
    pyUpper (pyStrip t) = t := by
  simp only [VALID_ORDER_TYPES, List.mem_cons, List.not_mem_nil, or_false] at h
  rcases h with h1 | h1 | h1 <;> (subst h1; decide)

theorem validate_quantity_ok {q r : Rat} (h : validate_quantity q = .ok r) :
    r = q ∧ 0 < q := by
  unfold validate_quantity at h
  split at h
  · exact absurd h (by simp)
  · cases h
    rename_i hq
    exact ⟨rfl, lt_of_not_le hq⟩

theorem validate_price_ok {price : Option Rat} {ot : String} {r : Option Rat}
    (h : validate_price price ot = .ok r) :
    r = price ∧ ((ot = "LIMIT" ∨ ot = "STOP_MARKET") → ∃ p, price = some p ∧ 0 < p) := by
  unfold validate_price at h
  split at h
  · rename_i hor
    split at h
    · exact absurd h (by simp)
    · rename_i p
      split at h
      · exact absurd h (by simp)
      · cases h
        rename_i hple
        exact ⟨rfl, fun _ => ⟨p, rfl, lt_of_not_le hple⟩⟩
  · rename_i hor
    cases h
    exact ⟨rfl, fun hc => absurd hc hor⟩

theorem validate_price_of_pos {ot : String} {p : Rat} (hp : 0 < p) :
    validate_price (some p) ot = .ok (some p) := by
  unfold validate_price
  split
  · dsimp only
    rw [if_neg (not_le.mpr hp)]
  · rfl

theorem validate_price_of_other {ot : String} (price : Option Rat)
    (h1 : ot ≠ "LIMIT") (h2 : ot ≠ "STOP_MARKET") :
    validate_price price ot = .ok price := by
  unfold validate_price
  rw [if_neg]
  rintro (hc | hc)
  · exact h1 hc
  · exact h2 hc

theorem validate_all_ok {symbol side order_type : String} {quantity : Rat}
    {price stop_price : Option Rat} {v : Validated}
    (h : validate_all symbol side order_type quantity price stop_price = .ok v) :
    validate_symbol symbol = .ok v.symbol
    ∧ validate_side side = .ok v.side
    ∧ validate_order_type order_type = .ok v.order_type
    ∧ validate_quantity quantity = .ok v.quantity
    ∧ validate_price price (pyUpper (pyStrip order_type)) = .ok v.price
    ∧ (pyUpper (pyStrip order_type) = "STOP_MARKET" →
        ∃ sp, stop_price = some sp ∧ 0 < sp ∧ v.stop_price = some sp)
    ∧ (pyUpper (pyStrip order_type) ≠ "STOP_MARKET" → v.stop_price = none) := by
  unfold validate_all at h
  cases hs : validate_symbol symbol with
  | error e => rw [hs] at h; exact absurd h (by simp)
  | ok s =>
  rw [hs] at h
  cases hsd : validate_side side with
  | error e => rw [hsd] at h; exact absurd h (by simp)
  | ok sd =>
  rw [hsd] at h
  cases hot : validate_order_type order_type with
  | error e => rw [hot] at h; exact absurd h (by simp)
  | ok ot =>
  rw [hot] at h
  cases hq : validate_quantity quantity with
  | error e => rw [hq] at h; exact absurd h (by simp)
  | ok q =>
  rw [hq] at h
  cases hp : validate_price price (pyUpper (pyStrip order_type)) with
  | error e => rw [hp] at h; exact absurd h (by simp)
  | ok p =>
  rw [hp] at h
  dsimp only at h
  by_cases hsm : pyUpper (pyStrip order_type) = "STOP_MARKET"
  · rw [if_pos hsm] at h
    cases hsp : stop_price with
    | none => rw [hsp] at h; exact absurd h (by simp)
    | some sp =>
    rw [hsp] at h
    dsimp only at h
    by_cases hle : sp ≤ 0
    · rw [if_pos hle] at h
      exact absurd h (by simp)
    · rw [if_neg hle] at h
      cases h
      exact ⟨rfl, rfl, rfl, rfl, rfl,
        fun _ => ⟨sp, rfl, lt_of_not_le hle, rfl⟩,
        fun hn => absurd hsm hn⟩
  · rw [if_neg hsm] at h
    cases h
    exact ⟨rfl, rfl, rfl, rfl, rfl, fun hc => absurd hc hsm, fun _ => rfl⟩

theorem isCode200_eq_false {c : JValue} (h : c ≠ .num 200) : isCode200 c = false := by
  cases c with
  | num n =>
      simp only [isCode200, decide_eq_false_iff_not]
      exact fun h2 => h (by rw [h2])
  | _ => rfl

theorem dictSet_of_not_mem (d : List (String × String)) (k v : String)
    (h : k ∉ d.map Prod.fst) : dictSet d k v = d ++ [(k, v)] := by
  unfold dictSet
  rw [if_neg]
  simpa using h

theorem lookup_append_right (l r : List (String × String)) (k : String)
    (h : k ∉ l.map Prod.fst) : (l ++ r).lookup k = r.lookup k := by
  induction l with
  | nil => rfl
  | cons p t ih =>
      obtain ⟨a, b⟩ := p
      simp only [List.map_cons, List.mem_cons] at h
      push_neg at h
      simp only [List.cons_append, List.lookup]
      rw [beq_eq_false_iff_ne.mpr h.1]
      exact ih h.2

theorem eraseKey_append (l r : List (String × String)) (k : String) :
    eraseKey (l ++ r) k = eraseKey l k ++ eraseKey r k := by
  simp [eraseKey, List.filter_append]

theorem eraseKey_of_not_mem (l : List (String × String)) (k : String)
    (h : k ∉ l.map Prod.fst) : eraseKey l k = l := by
  rw [eraseKey, List.filter_eq_self]
  intro p hp
  simp only [decide_eq_true_eq]
  intro hk
  exact h (hk ▸ List.mem_map_of_mem Prod.fst hp)

theorem eraseKey_single (k v : String) : eraseKey [(k, v)] k = [] := by
  simp [eraseKey]

theorem hexDigit_mem (n : Nat) : hexDigit n ∈ "0123456789abcdef".toList := by
  unfold hexDigit
  split <;> decide

theorem hexOfBytes_chars (bs : List Nat) (c : Char) (h : c ∈ (hexOfBytes bs).toList) :
    c ∈ "0123456789abcdef".toList := by
  unfold hexOfBytes at h
  simp only [String.toList, List.mem_flatMap] at h
  obtain ⟨b, _, hc⟩ := h
  simp only [List.mem_cons, List.not_mem_nil, or_false] at hc
  rcases hc with h1 | h1 <;> (subst h1; exact hexDigit_mem _)

/-! ### Claims -/

/-- C1: for every parameter mapping (without reserved keys) and secret, the
signer returns the mapping extended with exactly the two keys timestamp and
signature, where signature is the lowercase hex HMAC-SHA256 digest, keyed by
the secret, of the URL-encoded query string of all parameters including
timestamp and excluding signature; recomputing the digest over the signed
mapping minus its signature field reproduces the stored signature. -/
theorem sign_extends_and_roundtrip (params : List (String × String)) (secret : String)
    (now : Nat)
    (hts : "timestamp" ∉ params.map Prod.fst)
    (hsig : "signature" ∉ params.map Prod.fst) :
    signParams secret now params
      = params ++ [("timestamp", toString now),
          ("signature", hmacSha256Hex (utf8 secret)
            (utf8 (urlencode (params ++ [("timestamp", toString now)]))))]
    ∧ (signParams secret now params).lookup "signature"
        = some (hmacSha256Hex (utf8 secret)
            (utf8 (urlencode (eraseKey (signParams secret now params) "signature"))))
    ∧ ∀ c ∈ (hmacSha256Hex (utf8 secret)
          (utf8 (urlencode (params ++ [("timestamp", toString now)])))).toList,
        c ∈ "0123456789abcdef".toList := by
  have h1 : dictSet params "timestamp" (toString now)
      = params ++ [("timestamp", toString now)] :=
    dictSet_of_not_mem _ _ _ hts
  have hsig1 : "signature" ∉ (params ++ [("timestamp", toString now)]).map Prod.fst := by
    rw [List.map_append]
    simp only [List.mem_append, List.map_cons, List.map_nil, List.mem_cons,
      List.not_mem_nil, or_false]
    rintro (h | h)
    · exact hsig h
    · exact absurd h (by decide)
  have h2 : signParams secret now params
      = (params ++ [("timestamp", toString now)])
        ++ [("signature", hmacSha256Hex (utf8 secret)
              (utf8 (urlencode (params ++ [("timestamp", toString now)]))))] := by
    show dictSet (dictSet params "timestamp" (toString now)) "signature"
        (hmacSha256Hex (utf8 secret)
          (utf8 (urlencode (dictSet params "timestamp" (toString now))))) = _
    rw [h1]
    exact dictSet_of_not_mem _ _ _ hsig1
  refine ⟨by rw [h2, List.append_assoc]; rfl, ?_, fun c hc => hexOfBytes_chars _ _ hc⟩
  rw [h2, lookup_append_right _ _ _ hsig1, eraseKey_append,
    eraseKey_of_not_mem _ _ hsig1, eraseKey_single, List.append_nil]
  simp [List.lookup]

/-- Witness for C1: the signer applied to the spec's example market order. -/
theorem sign_extends_and_roundtrip_witness :
    signParams "secret" 1699999999999
        [("symbol", "BTCUSDT"), ("side", "BUY"), ("type", "MARKET"), ("quantity", "0.001")]
      = [("symbol", "BTCUSDT"), ("side", "BUY"), ("type", "MARKET"), ("quantity", "0.001")]
        ++ [("timestamp", toString 1699999999999),
            ("signature", hmacSha256Hex (utf8 "secret")
              (utf8 (urlencode ([("symbol", "BTCUSDT"), ("side", "BUY"),
                ("type", "MARKET"), ("quantity", "0.001")]
                ++ [("timestamp", toString 1699999999999)]))))]
    ∧ (signParams "secret" 1699999999999
        [("symbol", "BTCUSDT"), ("side", "BUY"), ("type", "MARKET"), ("quantity", "0.001")]).lookup
          "signature"
        = some (hmacSha256Hex (utf8 "secret")
            (utf8 (urlencode (eraseKey (signParams "secret" 1699999999999
              [("symbol", "BTCUSDT"), ("side", "BUY"), ("type", "MARKET"),
               ("quantity", "0.001")]) "signature"))))
    ∧ ∀ c ∈ (hmacSha256Hex (utf8 "secret")
          (utf8 (urlencode ([("symbol", "BTCUSDT"), ("side", "BUY"), ("type", "MARKET"),
            ("quantity", "0.001")] ++ [("timestamp", toString 1699999999999)])))).toList,
        c ∈ "0123456789abcdef".toList :=
  sign_extends_and_roundtrip
    [("symbol", "BTCUSDT"), ("side", "BUY"), ("type", "MARKET"), ("quantity", "0.001")]
    "secret" 1699999999999 (by decide) (by decide)

/-- C4 (code evaluated at the failing input): cancelling an order hands the
HTTP session a POST, not a DELETE — `_request` maps every non-GET method
string to `session.post`, so the "DELETE" passed by `cancel_order` is sent
as an HTTP POST to the order endpoint. -/
theorem cancel_order_sends_post :
    cancel_order_wire "BTCUSDT" 12345 =
      ⟨HttpVerb.POST, "/fapi/v1/order",
       [("symbol", PVal.s "BTCUSDT"), ("orderId", PVal.q 12345)]⟩
    ∧ HttpVerb.POST ≠ HttpVerb.DELETE := by
  exact ⟨rfl, by decide⟩

/-- C2: whenever the parsed response body is a dict whose `code` field is not
the 200 success sentinel, `_request` raises `BinanceAPIError` carrying that
code and the payload's `msg` (defaulting to "Unknown error"), for every HTTP
status — the payload check precedes `raise_for_status`. -/
theorem error_payload_raises_api_error (status : Nat) (fields : List (String × JValue))
    (c : JValue) (hc : fields.lookup "code" = some c) (hne : c ≠ .num 200) :
    handleResponse status (some (.obj fields)) = .apiError c (msgOf fields) := by
  simp only [handleResponse, hc, isCode200_eq_false hne, Bool.false_eq_true, if_false]

/-- Witness for C2: the spec's example — HTTP 200 with body
`{"code": -1000, "msg": "bad request"}` — is reported as an exchange-level
error with code -1000, not as success. -/
theorem error_payload_raises_api_error_witness :
    handleResponse 200 (some (.obj [("code", .num (-1000)), ("msg", .str "bad request")]))
      = .apiError (.num (-1000)) (.str "bad request") :=
  error_payload_raises_api_error 200 [("code", .num (-1000)), ("msg", .str "bad request")]
    (.num (-1000)) rfl (by simp)

/-- C8 counterexample: the claim says an unparseable body surfaces the
underlying HTTP status for all status codes, but under HTTP 200 the client
re-raises the JSON decode error, which carries no HTTP status — the result
is not `httpError 200`. -/
theorem unparseable_200_not_http_error :
    handleResponse 200 none = .parseError ∧ handleResponse 200 none ≠ .httpError 200 := by
  refine ⟨rfl, fun h => ?_⟩
  rw [show handleResponse 200 none = .parseError from rfl] at h
  exact ReqResult.noConfusion h

/-- C8 amended: an unparseable body always yields a transport failure, never
an exchange-level `ApiError` and never success; the underlying HTTP status is
surfaced when it is a failure status (400-599), and otherwise the JSON decode
error itself is re-raised. -/
theorem unparseable_body_transport_failure (status : Nat) :
    handleResponse status none
        = (if isHttpFailure status then .httpError status else .parseError)
    ∧ (∀ c m, handleResponse status none ≠ .apiError c m)
    ∧ (∀ d, handleResponse status none ≠ .ok d) := by
  refine ⟨rfl, fun c m h => ?_, fun d h => ?_⟩
  · rw [show handleResponse status none
        = (if isHttpFailure status then .httpError status else .parseError) from rfl] at h
    by_cases hs : isHttpFailure status = true
    · rw [if_pos hs] at h; exact ReqResult.noConfusion h
    · rw [if_neg hs] at h; exact ReqResult.noConfusion h
  · rw [show handleResponse status none
        = (if isHttpFailure status then .httpError status else .parseError) from rfl] at h
    by_cases hs : isHttpFailure status = true
    · rw [if_pos hs] at h; exact ReqResult.noConfusion h
    · rw [if_neg hs] at h; exact ReqResult.noConfusion h

/-- Witness for the amended C8: the spec's example — a 500 status with an
unparseable body — surfaces HTTP 500 as a transport failure, never an
`ApiError`. -/
theorem unparseable_body_transport_failure_witness :
    handleResponse 500 none = .httpError 500
    ∧ ∀ c m, handleResponse 500 none ≠ .apiError c m :=
  ⟨(unparseable_body_transport_failure 500).1.trans rfl,
   (unparseable_body_transport_failure 500).2.1⟩

/-- C3: when validation fails, the order workflow propagates exactly the
validation error and issues no request at all to the HTTP session. -/
theorem invalid_input_sends_nothing (symbol side order_type : String) (quantity : Rat)
    (price stop_price : Option Rat) (reduce_only : Bool) (e : String)
    (h : validate_all symbol side order_type quantity price stop_price = .error e) :
    place_order_run symbol side order_type quantity price stop_price reduce_only
      = ([], .error e) := by
  unfold place_order_run
  rw [h]

/-- Witness for C3: a zero quantity fails validation and the workflow issues
no request. -/
theorem invalid_input_sends_nothing_witness :
    place_order_run "BTCUSDT" "BUY" "MARKET" 0 none none false
      = ([], .error "Quantity must be > 0.") :=
  invalid_input_sends_nothing "BTCUSDT" "BUY" "MARKET" 0 none none false
    "Quantity must be > 0." rfl

theorem validate_symbol_ok {s r : String} (h : validate_symbol s = .ok r) :
    r = pyUpper (pyStrip s) ∧ r ≠ "" ∧ pyIsAlnum r = true := by
  unfold validate_symbol at h
  split at h
  · exact absurd h (by simp)
  · split at h
    · exact absurd h (by simp)
    · rename_i h1 h2
      cases h
      refine ⟨rfl, h1, ?_⟩
      simpa using h2

theorem validate_symbol_fix {s r : String} (h : validate_symbol s = .ok r) :
    validate_symbol r = .ok r := by
  obtain ⟨he, h1, h2⟩ := validate_symbol_ok h
  have hall := (pyIsAlnum_iff.mp h2).2
  have hstrip : pyStrip r = r := pyStrip_eq_self fun c hc => isPySpace_of_alnum (hall c hc)
  have hupper : pyUpper r = r := by rw [he, pyUpper_pyUpper]
  unfold validate_symbol
  rw [hstrip, hupper, if_neg h1, if_neg (by simp [h2])]

/-- C7: symbol validation trims and uppercases its input; it rejects every
symbol whose normalised form is empty or has a non-alphanumeric character,
and accepts every non-empty purely alphanumeric input, returning its
uppercased form. -/
theorem symbol_validation (s : String) :
    ((pyUpper (pyStrip s) = ""
        ∨ ∃ c ∈ (pyUpper (pyStrip s)).toList, isAlnumChar c = false) →
      ∀ r, validate_symbol s ≠ .ok r)
    ∧ (s.toList ≠ [] → (∀ c ∈ s.toList, isAlnumChar c = true) →
        validate_symbol s = .ok (pyUpper s)) := by
  constructor
  · rintro (hempty | ⟨c, hc, hbad⟩) r hok
    · obtain ⟨he, h1, _⟩ := validate_symbol_ok hok
      exact h1 (he.trans hempty)
    · obtain ⟨he, _, h2⟩ := validate_symbol_ok hok
      have hcc := (pyIsAlnum_iff.mp h2).2 c (by rw [he]; exact hc)
      rw [hbad] at hcc
      exact Bool.false_ne_true hcc
  · intro hne hall
    have hstrip : pyStrip s = s := pyStrip_eq_self fun c hc => isPySpace_of_alnum (hall c hc)
    have hupl : (pyUpper s).toList = s.toList.map pyToUpper := rfl
    have hne2 : pyUpper s ≠ "" := by
      intro h0
      apply hne
      have h3 : (pyUpper s).toList = [] := by rw [h0]; rfl
      rw [hupl] at h3
      exact List.map_eq_nil_iff.mp h3
    have halnum : pyIsAlnum (pyUpper s) = true := by
      rw [pyIsAlnum_iff]
      constructor
      · rw [hupl]
        intro hmapnil
        exact hne (List.map_eq_nil_iff.mp hmapnil)
      · intro c hc
        rw [hupl] at hc
        obtain ⟨a, ha, rfl⟩ := List.mem_map.mp hc
        exact isAlnumChar_pyToUpper (hall a ha)
    unfold validate_symbol
    rw [hstrip, if_neg hne2, if_neg (by simp [halnum])]

/-- Witness for C7: `BTC-USD` is rejected for its hyphen, and `btcusdt` is
accepted and normalised to `BTCUSDT`. -/
theorem symbol_validation_witness :
    (∀ r, validate_symbol "BTC-USD" ≠ .ok r)
    ∧ validate_symbol "btcusdt" = .ok (pyUpper "btcusdt") :=
  ⟨(symbol_validation "BTC-USD").1 (Or.inr ⟨'-', by decide, by decide⟩),
   (symbol_validation "btcusdt").2 (by decide) (by decide)⟩

/-- C5: a non-positive quantity always fails validation, and a positive
quantity always passes whenever the other fields meet their own validators'
requirements (symbol, side and type valid, and price / stop price meeting the
requirements of the given type). -/
theorem quantity_validation (symbol side order_type : String) (quantity : Rat)
    (price stop_price : Option Rat) :
    (quantity ≤ 0 →
      ∀ v, validate_all symbol side order_type quantity price stop_price ≠ .ok v)
    ∧ (0 < quantity →
        (∃ s, validate_symbol symbol = .ok s) →
        (∃ sd, validate_side side = .ok sd) →
        (∃ ot, validate_order_type order_type = .ok ot) →
        (∃ p, validate_price price (pyUpper (pyStrip order_type)) = .ok p) →
        (pyUpper (pyStrip order_type) = "STOP_MARKET" →
          ∃ sp, stop_price = some sp ∧ 0 < sp) →
        ∃ v, validate_all symbol side order_type quantity price stop_price = .ok v) := by
  constructor
  · intro hq v hok
    obtain ⟨-, -, -, hqok, -⟩ := validate_all_ok hok
    obtain ⟨-, hpos⟩ := validate_quantity_ok hqok
    exact absurd hpos (not_lt.mpr hq)
  · rintro hq ⟨s, hs⟩ ⟨sd, hsd⟩ ⟨ot, hot⟩ ⟨p, hp⟩ hstop
    have hqok : validate_quantity quantity = .ok quantity := by
      unfold validate_quantity
      rw [if_neg (not_le.mpr hq)]
    unfold validate_all
    rw [hs, hsd, hot, hqok, hp]
    dsimp only
    by_cases hsm : pyUpper (pyStrip order_type) = "STOP_MARKET"
    · obtain ⟨sp, hspe, hsppos⟩ := hstop hsm
      rw [if_pos hsm, hspe]
      dsimp only
      rw [if_neg (not_le.mpr hsppos)]
      exact ⟨_, rfl⟩
    · rw [if_neg hsm]
      exact ⟨_, rfl⟩

/-- Witness for C5: quantity 0 fails, and quantity 1/1000 passes for a valid
market order. -/
theorem quantity_validation_witness :
    (∀ v, validate_all "BTCUSDT" "BUY" "MARKET" 0 none none ≠ .ok v)
    ∧ ∃ v, validate_all "BTCUSDT" "BUY" "MARKET" (1 / 1000) none none = .ok v :=
  ⟨(quantity_validation "BTCUSDT" "BUY" "MARKET" 0 none none).1 le_rfl,
   (quantity_validation "BTCUSDT" "BUY" "MARKET" (1 / 1000) none none).2
     (by norm_num) ⟨"BTCUSDT", rfl⟩ ⟨"BUY", rfl⟩ ⟨"MARKET", rfl⟩ ⟨none, rfl⟩
     (fun h => absurd h (by decide))⟩

/-- C6: price is demanded (present and positive) by `validate_price` exactly
for the LIMIT and STOP_MARKET types and returned unchecked otherwise; and
`validate_all` rejects a STOP_MARKET order whose stop price is omitted or
non-positive, while for any other normalised type the stop price is ignored
entirely. -/
theorem price_requirements :
    (∀ (price : Option Rat) (t : String), t = "LIMIT" ∨ t = "STOP_MARKET" →
      ((∃ r, validate_price price t = .ok r) ↔ ∃ p, price = some p ∧ 0 < p))
    ∧ (∀ (price : Option Rat) (t : String), t ≠ "LIMIT" → t ≠ "STOP_MARKET" →
        validate_price price t = .ok price)
    ∧ (∀ (symbol side order_type : String) (quantity : Rat)
        (price stop_price : Option Rat),
        pyUpper (pyStrip order_type) = "STOP_MARKET" →
        (∀ sp, stop_price = some sp → sp ≤ 0) →
        ∀ v, validate_all symbol side order_type quantity price stop_price ≠ .ok v)
    ∧ (∀ (symbol side order_type : String) (quantity : Rat) (price s1 s2 : Option Rat),
        pyUpper (pyStrip order_type) ≠ "STOP_MARKET" →
        validate_all symbol side order_type quantity price s1
          = validate_all symbol side order_type quantity price s2) := by
  refine ⟨?_, ?_, ?_, ?_⟩
  · intro price t hor
    constructor
    · rintro ⟨r, hok⟩
      exact (validate_price_ok hok).2 hor
    · rintro ⟨p, rfl, hp⟩
      exact ⟨some p, validate_price_of_pos hp⟩
  · intro price t h1 h2
    exact validate_price_of_other price h1 h2
  · intro symbol side order_type quantity price stop_price hsm hle v hok
    obtain ⟨-, -, -, -, -, hstop, -⟩ := validate_all_ok hok
    obtain ⟨sp, hspe, hsppos, -⟩ := hstop hsm
    exact absurd hsppos (not_lt.mpr (hle sp hspe))
  · intro symbol side order_type quantity price s1 s2 hne
    unfold validate_all
    cases validate_symbol symbol with
    | error e => rfl
    | ok s =>
    cases validate_side side with
    | error e => rfl
    | ok sd =>
    cases validate_order_type order_type with
    | error e => rfl
    | ok ot =>
    cases validate_quantity quantity with
    | error e => rfl
    | ok q =>
    cases validate_price price (pyUpper (pyStrip order_type)) with
    | error e => rfl
    | ok p =>
    dsimp only
    rw [if_neg hne, if_neg hne]

/-- Witness for C6: a positive LIMIT price passes `validate_price`, a MARKET
order's absent price is returned unchecked, and a STOP_MARKET order without a
stop price is rejected by `validate_all`. -/
theorem price_requirements_witness :
    (∃ r, validate_price (some 5) "LIMIT" = .ok r)
    ∧ validate_price none "MARKET" = .ok none
    ∧ (∀ v, validate_all "BTCUSDT" "BUY" "STOP_MARKET" 1 (some 5) none ≠ .ok v) :=
  ⟨(price_requirements.1 (some 5) "LIMIT" (Or.inl rfl)).mpr ⟨5, rfl, by norm_num⟩,
   price_requirements.2.1 none "MARKET" (by decide) (by decide),
   price_requirements.2.2.1 "BTCUSDT" "BUY" "STOP_MARKET" 1 (some 5) none (by decide)
     (fun sp h => Option.noConfusion h)⟩

/-- C10: the normalised values returned by a successful `validate_all` are a
fixed point of validation — running `validate_all` on them succeeds and
returns them unchanged. -/
theorem validate_all_idem (symbol side order_type : String) (quantity : Rat)
    (price stop_price : Option Rat) (v : Validated)
    (h : validate_all symbol side order_type quantity price stop_price = .ok v) :
    validate_all v.symbol v.side v.order_type v.quantity v.price v.stop_price = .ok v := by
  obtain ⟨hs, hsd, hot, hq, hp, hstop, hnostop⟩ := validate_all_ok h
  have hsfix := validate_symbol_fix hs
  have hsdfix := validate_side_fix hsd
  have hotfix := validate_order_type_fix hot
  have hoteq : pyUpper (pyStrip order_type) = v.order_type :=
    (validate_order_type_ok hot).1.symm
  have hnorm : pyUpper (pyStrip v.order_type) = v.order_type :=
    normalize_fix (validate_order_type_ok hot).2
  have hq2 : validate_quantity v.quantity = .ok v.quantity := by
    obtain ⟨he, hpos⟩ := validate_quantity_ok hq
    unfold validate_quantity
    rw [if_neg (not_le.mpr (he ▸ hpos))]
  have hp2 : validate_price v.price v.order_type = .ok v.price := by
    obtain ⟨he, hreq⟩ := validate_price_ok hp
    by_cases hc : v.order_type = "LIMIT" ∨ v.order_type = "STOP_MARKET"
    · obtain ⟨p, hpe, hppos⟩ := hreq (by rw [hoteq]; exact hc)
      rw [he, hpe]
      exact validate_price_of_pos hppos
    · push_neg at hc
      exact validate_price_of_other _ hc.1 hc.2
  unfold validate_all
  rw [hsfix, hsdfix, hotfix, hq2, hnorm, hp2]
  dsimp only
  by_cases hsm : v.order_type = "STOP_MARKET"
  · obtain ⟨sp, hspe, hsppos, hvsp⟩ := hstop (by rw [hoteq]; exact hsm)
    rw [if_pos hsm, hvsp]
    dsimp only
    rw [if_neg (not_le.mpr hsppos), ← hvsp]
  · rw [if_neg hsm, ← hnostop (by rw [hoteq]; exact hsm)]

/-- Witness for C10: re-validating the normalised stop-market order returned
by `validate_all` reproduces it exactly. -/
theorem validate_all_idem_witness :
    validate_all "BTCUSDT" "BUY" "STOP_MARKET" 1 (some 5) (some 3)
      = .ok ⟨"BTCUSDT", "BUY", "STOP_MARKET", 1, some 5, some 3⟩ :=
  validate_all_idem " btcusdt" "buy" "stop_market " 1 (some 5) (some 3)
    ⟨"BTCUSDT", "BUY", "STOP_MARKET", 1, some 5, some 3⟩ rfl

/-- C9: an order parameter set accepted by `place_order` holds exactly the
keys symbol, side, type, quantity, plus price and timeInForce exactly for
LIMIT, stopPrice exactly for STOP_MARKET, and reduceOnly (as the string
"true") exactly when the flag is set — so a STOP_MARKET order's price is
never part of the request. -/
theorem order_params_keys (symbol side order_type : String) (quantity : Rat)
    (price : Option Rat) (time_in_force : String) (stop_price : Option Rat)
    (reduce_only : Bool) (ps : List (String × PVal))
    (h : buildOrderParams symbol side order_type quantity price time_in_force
      stop_price reduce_only = .ok ps) :
    ps.map Prod.fst
      = ["symbol", "side", "type", "quantity"]
        ++ (if order_type = "LIMIT" then ["price", "timeInForce"] else [])
        ++ (if order_type = "STOP_MARKET" then ["stopPrice"] else [])
        ++ (if reduce_only then ["reduceOnly"] else [])
    ∧ (reduce_only = true → ("reduceOnly", PVal.s "true") ∈ ps)
    ∧ (order_type = "STOP_MARKET" → "price" ∉ ps.map Prod.fst) := by
  by_cases hl : order_type = "LIMIT" <;> by_cases hst : order_type = "STOP_MARKET"
  · exact absurd (hl ▸ hst) (by subst hl; simp)
  · cases price with
    | none => simp [buildOrderParams, hl, hst, Except.bind] at h
    | some p =>
        cases reduce_only <;>
          · simp [buildOrderParams, hl, hst, bind, Except.bind, pure, Except.pure] at h
            subst h
            simp [hl, hst]
  · cases stop_price with
    | none => simp [buildOrderParams, hl, hst, Except.bind] at h
    | some sp =>
        cases reduce_only <;>
          · simp [buildOrderParams, hl, hst, bind, Except.bind, pure, Except.pure] at h
            subst h
            simp [hl, hst]
  · cases reduce_only <;>
      · simp [buildOrderParams, hl, hst, bind, Except.bind, pure, Except.pure] at h
        subst h
        simp [hl, hst]

/-- Witness for C9: a reduce-only STOP_MARKET order's parameter keys are
symbol, side, type, quantity, stopPrice, reduceOnly — no price. -/
theorem order_params_keys_witness :
    ∃ ps, buildOrderParams "BTCUSDT" "SELL" "STOP_MARKET" 1 (some 5) "GTC"
        (some 58000) true = .ok ps
      ∧ ps.map Prod.fst
          = ["symbol", "side", "type", "quantity"]
            ++ (if ("STOP_MARKET" : String) = "LIMIT" then ["price", "timeInForce"] else [])
            ++ (if ("STOP_MARKET" : String) = "STOP_MARKET" then ["stopPrice"] else [])
            ++ (if true then ["reduceOnly"] else [])
      ∧ ("reduceOnly", PVal.s "true") ∈ ps
      ∧ "price" ∉ ps.map Prod.fst := by
  refine ⟨[("symbol", .s "BTCUSDT"), ("side", .s "SELL"), ("type", .s "STOP_MARKET"),
    ("quantity", .q 1), ("stopPrice", .q 58000), ("reduceOnly", .s "true")], rfl, ?_⟩
  have h := order_params_keys "BTCUSDT" "SELL" "STOP_MARKET" 1 (some 5) "GTC"
    (some 58000) true _ rfl
  exact ⟨h.1, h.2.1 rfl, h.2.2 rfl⟩

end TradingBot

